import Mathlib

/-!
Shallow embedding of the float primitive layer in
`src/kfreebsd/runtime/ocaml/floats.c` (OCaml runtime `floats.c` with a
FreeBSD-kernel fixed-point back-end), together with proofs about its
comparison, classification, boxing and string-conversion operations.
-/

namespace Floats

/-!
## Value domain for IEEE doubles (hosted back-end)

In the hosted back-end a `__double` is an IEEE-754 double.  For the
comparison operators only the ordered value matters (IEEE `==`, `<`, … do
not distinguish `-0.0` from `0.0`), so a double value is modelled as
either NaN, an infinity, or a finite value represented by a rational.
The six C relational operators on doubles follow IEEE semantics: every
comparison involving a NaN is false, except `!=` which is true.
-/

inductive DVal where
  | NaN : DVal
  | NInf : DVal
  | F : ℚ → DVal
  | PInf : DVal
deriving DecidableEq

/-- The native C `==` on doubles (IEEE equality: false on NaN operands). -/
def deq : DVal → DVal → Bool
  | .NaN, _ => false
  | _, .NaN => false
  | .NInf, .NInf => true
  | .PInf, .PInf => true
  | .F a, .F b => a == b
  | _, _ => false

/-- The native C `<` on doubles (IEEE less-than: false on NaN operands). -/
def dlt : DVal → DVal → Bool
  | .NaN, _ => false
  | _, .NaN => false
  | .NInf, .NInf => false
  | .NInf, _ => true
  | _, .NInf => false
  | .F a, .F b => a < b
  | .F _, .PInf => true
  | .PInf, _ => false

/-- The native C `<=` on doubles (IEEE: false on NaN operands). -/
def dle : DVal → DVal → Bool
  | .NaN, _ => false
  | _, .NaN => false
  | .NInf, _ => true
  | _, .NInf => false
  | .F a, .F b => a ≤ b
  | .F _, .PInf => true
  | .PInf, .PInf => true
  | .PInf, .F _ => false

/-- The native C `>` on doubles: `f > g` iff `g < f` under IEEE. -/
def dgt (f g : DVal) : Bool := dlt g f

/-- The native C `>=` on doubles: `f >= g` iff `g <= f` under IEEE. -/
def dge (f g : DVal) : Bool := dle g f

/-- The native C `!=` on doubles: the negation of IEEE `==`. -/
def dne (f g : DVal) : Bool := !(deq f g)

/-- `caml_eq_float` (floats.c:647): `Val_bool(Double_val(f) == Double_val(g))`
(both preprocessor branches are identical). -/
def caml_eq_float (f g : DVal) : Bool := deq f g

/-- `caml_neq_float` (floats.c:656): `Val_bool(Double_val(f) != Double_val(g))`. -/
def caml_neq_float (f g : DVal) : Bool := dne f g

/-- `caml_le_float` (floats.c:665): `Val_bool(Double_val(f) <= Double_val(g))`. -/
def caml_le_float (f g : DVal) : Bool := dle f g

/-- `caml_lt_float`, hosted branch (floats.c:679):
`Val_bool(Double_val(f) < Double_val(g))`. -/
def caml_lt_float (f g : DVal) : Bool := dlt f g

/-- `caml_ge_float` (floats.c:683): `Val_bool(Double_val(f) >= Double_val(g))`. -/
def caml_ge_float (f g : DVal) : Bool := dge f g

/-- `caml_gt_float` (floats.c:692): `Val_bool(Double_val(f) > Double_val(g))`. -/
def caml_gt_float (f g : DVal) : Bool := dgt f g

/-!
In the FreeBSD-kernel back-end `__double` is a `fixpt` fixed-point number
(a scaled machine integer from `fixmath.h`, which is outside this
repository); the native relational operators on it are ordinary integer
comparisons, so the kernel-side operands are modelled as `Int`.
-/

/-- `caml_lt_float`, kernel branch (floats.c:677):
`Val_bool(Double_val(f) <= Double_val(g))` — note the `<=`, where every
other predicate's kernel branch uses the operator matching its name. -/
def caml_lt_float_kernel (f g : Int) : Bool := f ≤ g

/-- `caml_float_compare` (floats.c:701-715): three-way comparison.
The `#if 0` block (lines 710-713) is not compiled, so both mixed-NaN
cases fall through to the final `return Val_int(0)`. -/
def caml_float_compare (f g : DVal) : Int :=
  if deq f g then 0
  else if dlt f g then -1
  else if dgt f g then 1
  else 0

/-- Mathematical value of a non-NaN double inside the extended rationals
`WithBot (WithTop ℚ)` (`⊥` = −∞, `⊤` = +∞).  `NaN` is mapped to `⊥`
arbitrarily; it is only used under non-NaN hypotheses. -/
def DVal.toE : DVal → WithBot (WithTop ℚ)
  | .NaN => ⊥
  | .NInf => ⊥
  | .F q => ((q : WithTop ℚ) : WithBot (WithTop ℚ))
  | .PInf => ((⊤ : WithTop ℚ) : WithBot (WithTop ℚ))

/-! ### Bridge lemmas between the native operators and the extended order -/

theorem deq_iff_toE (f g : DVal) (hf : f ≠ .NaN) (hg : g ≠ .NaN) :
    deq f g = true ↔ f.toE = g.toE := by
  cases f <;> cases g <;>
    simp_all [deq, DVal.toE, beq_iff_eq]

theorem dlt_iff_toE (f g : DVal) (hf : f ≠ .NaN) (hg : g ≠ .NaN) :
    dlt f g = true ↔ f.toE < g.toE := by
  cases f <;> cases g <;> simp_all [dlt, DVal.toE] <;>
    exact WithBot.coe_lt_coe.mpr (WithTop.coe_lt_top _)

theorem compare_eq_of_toE (f g : DVal) (hf : f ≠ .NaN) (hg : g ≠ .NaN) :
    caml_float_compare f g =
      (if f.toE < g.toE then -1 else if f.toE = g.toE then 0 else 1) := by
  unfold caml_float_compare
  rcases lt_trichotomy f.toE g.toE with h | h | h
  · have hlt : dlt f g = true := (dlt_iff_toE f g hf hg).mpr h
    have hne : ¬ deq f g = true := by
      rw [deq_iff_toE f g hf hg]; exact fun he => absurd he (ne_of_lt h)
    simp [hlt, hne, h]
  · have heq : deq f g = true := (deq_iff_toE f g hf hg).mpr h
    simp [heq, h]
  · have hgt : dgt f g = true := (dlt_iff_toE g f hg hf).mpr h
    have hne : ¬ deq f g = true := by
      rw [deq_iff_toE f g hf hg]; exact fun he => absurd he (ne_of_gt h)
    have hnl : ¬ dlt f g = true := by
      rw [dlt_iff_toE f g hf hg]; exact fun hl => absurd h (not_lt.mpr hl.le)
    simp [hne, hnl, dgt] at hgt ⊢
    simp [dgt, hgt, not_lt.mpr h.le, h.ne.symm]

theorem compare_nan_left (g : DVal) : caml_float_compare .NaN g = 0 := by
  cases g <;> rfl

theorem compare_nan_right (f : DVal) : caml_float_compare f .NaN = 0 := by
  cases f <;> rfl

theorem compare_le_zero_iff (f g : DVal) (hf : f ≠ .NaN) (hg : g ≠ .NaN) :
    caml_float_compare f g ≤ 0 ↔ f.toE ≤ g.toE := by
  rw [compare_eq_of_toE f g hf hg]
  rcases lt_trichotomy f.toE g.toE with h | h | h
  · simp [h, h.le]
  · simp [h, lt_irrefl]
  · simp [not_lt.mpr h.le, h.ne', not_le.mpr h]

/-- **C3** `caml_float_compare` returns 0 whenever either operand is NaN
(mixed cases included: NaN is never sorted to one end), and on non-NaN
operands returns -1 / 0 / 1 according to the order of the operand values
in the extended rationals. -/
theorem caml_float_compare_spec (f g : DVal) :
    ((f = .NaN ∨ g = .NaN) → caml_float_compare f g = 0) ∧
    (f ≠ .NaN → g ≠ .NaN →
      caml_float_compare f g =
        (if f.toE < g.toE then -1 else if f.toE = g.toE then 0 else 1)) := by
  constructor
  · rintro (rfl | rfl)
    · exact compare_nan_left g
    · exact compare_nan_right f
  · exact compare_eq_of_toE f g

/-- Witness for `caml_float_compare_spec` at concrete inputs. -/
theorem caml_float_compare_spec_witness :
    caml_float_compare (.F 1) .NaN = 0 ∧ caml_float_compare (.F 1) (.F 2) = -1 := by
  constructor
  · exact (caml_float_compare_spec (.F 1) .NaN).1 (Or.inr rfl)
  · have h := (caml_float_compare_spec (.F 1) (.F 2)).2
      (fun hc => DVal.noConfusion hc) (fun hc => DVal.noConfusion hc)
    rw [h, if_pos]
    exact WithBot.coe_lt_coe.mpr (WithTop.coe_lt_coe.mpr (by norm_num))

/-- **C2 counterexample**: `caml_float_compare` is not transitive, hence not
a total order: `compare(2.0, NaN) = 0 ≤ 0` and `compare(NaN, 1.0) = 0 ≤ 0`
but `compare(2.0, 1.0) = 1 > 0`. -/
theorem caml_float_compare_not_transitive :
    caml_float_compare (.F 2) .NaN ≤ 0 ∧ caml_float_compare .NaN (.F 1) ≤ 0 ∧
      ¬ caml_float_compare (.F 2) (.F 1) ≤ 0 := by decide

/-- **C2 (amended)** `caml_float_compare` is antisymmetric
(`compare(f,g) = -compare(g,f)`), returns 0 whenever either operand is
NaN, and is transitive on non-NaN operands; on all doubles transitivity
(and hence totality of the order) fails, per
`caml_float_compare_not_transitive`. -/
theorem caml_float_compare_order :
    (∀ f g, caml_float_compare f g = - caml_float_compare g f) ∧
    (∀ f g, (f = .NaN ∨ g = .NaN) → caml_float_compare f g = 0) ∧
    (∀ f g k, f ≠ .NaN → g ≠ .NaN → k ≠ .NaN →
      caml_float_compare f g ≤ 0 → caml_float_compare g k ≤ 0 →
      caml_float_compare f k ≤ 0) := by
  refine ⟨?_, ?_, ?_⟩
  · intro f g
    by_cases hf : f = .NaN
    · subst hf; rw [compare_nan_left, compare_nan_right]; rfl
    by_cases hg : g = .NaN
    · subst hg; rw [compare_nan_left, compare_nan_right]; rfl
    rw [compare_eq_of_toE f g hf hg, compare_eq_of_toE g f hg hf]
    rcases lt_trichotomy f.toE g.toE with h | h | h
    · simp [h, not_lt.mpr h.le, h.ne']
    · simp [h, lt_irrefl]
    · simp [h, not_lt.mpr h.le, h.ne']
  · intro f g hfg
    rcases hfg with rfl | rfl
    · exact compare_nan_left g
    · exact compare_nan_right f
  · intro f g k hf hg hk h1 h2
    exact (compare_le_zero_iff f k hf hk).mpr
      (le_trans ((compare_le_zero_iff f g hf hg).mp h1)
        ((compare_le_zero_iff g k hg hk).mp h2))

/-- Witness for `caml_float_compare_order` at concrete inputs. -/
theorem caml_float_compare_order_witness :
    caml_float_compare (.F 1) (.F 2) = - caml_float_compare (.F 2) (.F 1) ∧
    caml_float_compare .NaN (.F 2) = 0 ∧
    caml_float_compare (.F 1) (.F 2) ≤ 0 := by
  obtain ⟨h1, h2, h3⟩ := caml_float_compare_order
  refine ⟨h1 (.F 1) (.F 2), h2 .NaN (.F 2) (Or.inl rfl), ?_⟩
  exact h3 (.F 1) (.F 1) (.F 2)
    (fun hc => DVal.noConfusion hc) (fun hc => DVal.noConfusion hc)
    (fun hc => DVal.noConfusion hc) (by decide) (by decide)

/-- **C4** In the FreeBSD-kernel back-end `caml_lt_float` computes
`Double_val(f) <= Double_val(g)` (floats.c:677), not `<` as the spec and
its own hosted branch (floats.c:679) prescribe: on equal operands the
kernel `lt` answers `true` while the hosted `lt` answers `false`. -/
theorem caml_lt_float_kernel_bug :
    caml_lt_float_kernel 1 1 = true ∧ ¬ ((1 : Int) < 1) ∧
      caml_lt_float (.F 1) (.F 1) = false := by decide

/-!
## Classification

`caml_classify_float` (floats.c:719-762).  The generic branch
(floats.c:743-761) reinterprets the double through
`union double_as_two_int32` (floats.c:613-620), whose struct field order
puts the sign/exponent word in `h` for both byte orders, and inspects the
bit pattern.  It is modelled on the 64-bit IEEE bit pattern of the double
(little-endian word order: `h` is the high word, `l` the low word).
-/

/-- Enum `{ FP_normal, FP_subnormal, FP_zero, FP_infinite, FP_nan }`
(floats.c:717). -/
def FP_normal : Nat := 0

def FP_subnormal : Nat := 1

def FP_zero : Nat := 2

def FP_infinite : Nat := 3

def FP_nan : Nat := 4

/-- `caml_classify_float`, generic bit-inspection branch (floats.c:743-761),
on the 64-bit IEEE bit pattern of the argument. -/
def caml_classify_float (bits : Nat) : Nat :=
  let h0 := bits / 2 ^ 32
  let l0 := bits % 2 ^ 32
  let l := l0 ||| (h0 &&& 0xFFFFF)
  let h := h0 &&& 0x7FF00000
  if h ||| l = 0 then FP_zero
  else if h = 0 then FP_subnormal
  else if h = 0x7FF00000 then
    if l = 0 then FP_infinite else FP_nan
  else FP_normal

/-- `caml_classify_float`, FreeBSD-kernel branch (floats.c:735-741): the
`fixpt` fixed-point value (a scaled machine integer, modelled as `Int`)
is only tested against zero. -/
def caml_classify_float_kernel (d : Int) : Nat :=
  if d = 0 then FP_zero else FP_normal

/-- The classification rule as the spec states it: an 11-bit exponent
field (bits 52-62) and a 52-bit mantissa field (bits 0-51) of the IEEE-754
bit pattern decide the class. -/
def classifyIEEE (bits : Nat) : Nat :=
  let e := bits / 2 ^ 52 % 2 ^ 11
  let m := bits % 2 ^ 52
  if e = 0 then (if m = 0 then FP_zero else FP_subnormal)
  else if e = 0x7FF then (if m = 0 then FP_infinite else FP_nan)
  else FP_normal

theorem nat_or_eq_zero_iff (x y : Nat) : x ||| y = 0 ↔ x = 0 ∧ y = 0 := by
  constructor
  · intro hxy
    have hb : ∀ i, Nat.testBit x i = false ∧ Nat.testBit y i = false := by
      intro i
      have h1 := congrArg (fun n => Nat.testBit n i) hxy
      simpa using h1
    exact ⟨Nat.eq_of_testBit_eq fun i => by simp [(hb i).1],
           Nat.eq_of_testBit_eq fun i => by simp [(hb i).2]⟩
  · rintro ⟨rfl, rfl⟩; rfl

theorem nat_and_FFFFF (x : Nat) : x &&& 0xFFFFF = x % 2 ^ 20 := by
  have h : (0xFFFFF : Nat) = 2 ^ 20 - 1 := by norm_num
  rw [h, Nat.and_pow_two_sub_one_eq_mod]

theorem nat_and_7FF00000 (x : Nat) :
    x &&& 0x7FF00000 = x / 2 ^ 20 % 2 ^ 11 * 2 ^ 20 := by
  have e1 : (0x7FF00000 : Nat) = (2 ^ 11 - 1) <<< 20 := by
    rw [Nat.shiftLeft_eq]; norm_num
  have e2 : x / 2 ^ 20 % 2 ^ 11 * 2 ^ 20 = ((x >>> 20) % 2 ^ 11) <<< 20 := by
    rw [Nat.shiftLeft_eq, Nat.shiftRight_eq_div_pow]
  rw [e1, e2]
  apply Nat.eq_of_testBit_eq
  intro i
  rw [Nat.testBit_land, Nat.testBit_shiftLeft, Nat.testBit_shiftLeft,
    Nat.testBit_two_pow_sub_one, Nat.testBit_mod_two_pow, Nat.testBit_shiftRight]
  by_cases h20 : 20 ≤ i
  · have hd : decide (20 ≤ i) = true := decide_eq_true h20
    simp only [hd, Bool.true_and, Nat.add_sub_cancel' h20]
    cases hxi : Nat.testBit x i <;> cases hlt : decide (i - 20 < 11) <;> simp
  · simp [h20]

/-- The bit-inspection classification agrees with the spec rule on every
64-bit pattern. -/
theorem caml_classify_float_eq_ieee (bits : Nat) :
    caml_classify_float bits = classifyIEEE bits := by
  unfold caml_classify_float classifyIEEE
  simp only [nat_and_FFFFF, nat_and_7FF00000, nat_or_eq_zero_iff]
  have hexp : bits / 2 ^ 52 = bits / 2 ^ 32 / 2 ^ 20 := by
    rw [Nat.div_div_eq_div_mul]; norm_num
  have hm : bits % 2 ^ 52 = bits % 2 ^ 32 + 2 ^ 32 * (bits / 2 ^ 32 % 2 ^ 20) := by
    omega
  rw [hexp]
  set E := bits / 2 ^ 32 / 2 ^ 20 % 2 ^ 11 with hE
  set L0 := bits % 2 ^ 32 with hL0
  set H20 := bits / 2 ^ 32 % 2 ^ 20 with hH20
  split_ifs <;> omega

/-- **C5 counterexample**: the same 64-bit content is classified by the
spec rule (and the bit-inspection back-end) as subnormal, but the
FreeBSD-kernel back-end classifies every nonzero value as normal — the
five-way rule does not hold in every compiled-in back-end. -/
theorem caml_classify_float_backend_mismatch :
    caml_classify_float_kernel 1 = FP_normal ∧
      caml_classify_float 1 = FP_subnormal ∧ FP_normal ≠ FP_subnormal := by
  decide

/-- **C5 (amended)** In the bit-inspection back-end, `caml_classify_float`
follows the IEEE exponent/mantissa rule on every 64-bit pattern and maps
`0.0`, `-0.0`, the infinities, a NaN, `1.0` and the smallest subnormal to
their classes; the FreeBSD-kernel back-end only ever answers zero or
normal. -/
theorem caml_classify_float_spec :
    (∀ bits, bits < 2 ^ 64 → caml_classify_float bits = classifyIEEE bits) ∧
    caml_classify_float 0x0000000000000000 = FP_zero ∧
    caml_classify_float 0x8000000000000000 = FP_zero ∧
    caml_classify_float 0x7FF0000000000000 = FP_infinite ∧
    caml_classify_float 0xFFF0000000000000 = FP_infinite ∧
    caml_classify_float 0x7FF8000000000000 = FP_nan ∧
    caml_classify_float 0x3FF0000000000000 = FP_normal ∧
    caml_classify_float 0x0000000000000001 = FP_subnormal ∧
    (∀ d : Int, caml_classify_float_kernel d = FP_zero ∨
      caml_classify_float_kernel d = FP_normal) := by
  refine ⟨fun bits _ => caml_classify_float_eq_ieee bits, ?_, ?_, ?_, ?_, ?_, ?_, ?_, ?_⟩
  · decide
  · decide
  · decide
  · decide
  · decide
  · decide
  · decide
  · intro d
    unfold caml_classify_float_kernel
    by_cases hd : d = 0 <;> simp [hd]

/-- Witness for `caml_classify_float_spec` at a concrete bit pattern. -/
theorem caml_classify_float_spec_witness :
    (0x7FF0000000000001 : Nat) < 2 ^ 64 ∧
      caml_classify_float 0x7FF0000000000001 = classifyIEEE 0x7FF0000000000001 :=
  ⟨by norm_num, caml_classify_float_spec.1 0x7FF0000000000001 (by norm_num)⟩

/-!
## Boxing and unboxing on alignment-constrained targets

Under `ARCH_ALIGN_DOUBLE` (floats.c:85-107) a `value` is one machine word
(32 bits on the targets needing this path, so that
`sizeof(__double) == 2 * sizeof(value)`), and
`union { value v[2]; __double d; }` reinterprets the 64-bit double bit
pattern as the two words in memory order; which of `v[0]`/`v[1]` holds
the high half depends on the target byte order, so both functions are
parameterized by it.  The double is modelled by its 64-bit pattern.
-/

/-- A heap cell tagged `Double_tag` with two `value` fields. -/
structure DoubleBox where
  field0 : Nat
  field1 : Nat

/-- `caml_Store_double_val` (floats.c:97-105): `buffer.d = dbl` then
`Field(val, 0) = buffer.v[0]; Field(val, 1) = buffer.v[1]`. -/
def caml_Store_double_val (bigEndian : Bool) (dbl : Nat) : DoubleBox :=
  if bigEndian then ⟨dbl / 2 ^ 32, dbl % 2 ^ 32⟩ else ⟨dbl % 2 ^ 32, dbl / 2 ^ 32⟩

/-- `caml_Double_val` (floats.c:87-95): `buffer.v[0] = Field(val, 0);
buffer.v[1] = Field(val, 1); return buffer.d`. -/
def caml_Double_val (bigEndian : Bool) (b : DoubleBox) : Nat :=
  if bigEndian then b.field0 * 2 ^ 32 + b.field1 else b.field1 * 2 ^ 32 + b.field0

/-- `caml_copy_double` (floats.c:109-120): allocate a `Double_wosize` /
`Double_tag` cell and `Store_double_val(res, d)` into it. -/
def caml_copy_double (bigEndian : Bool) (d : Nat) : DoubleBox :=
  caml_Store_double_val bigEndian d

/-- **C1** Unboxing a freshly boxed double returns the same 64-bit pattern,
for either byte order of the two-word marshalling. -/
theorem caml_copy_double_roundtrip (bigEndian : Bool) (d : Nat)
    (_hd : d < 2 ^ 64) :
    caml_Double_val bigEndian (caml_copy_double bigEndian d) = d := by
  unfold caml_copy_double caml_Store_double_val caml_Double_val
  cases bigEndian <;> simp <;> omega

/-- Witness for `caml_copy_double_roundtrip` at the bit pattern of π. -/
theorem caml_copy_double_roundtrip_witness :
    (0x400921FB54442D18 : Nat) < 2 ^ 64 ∧
      caml_Double_val false (caml_copy_double false 0x400921FB54442D18) =
        0x400921FB54442D18 :=
  ⟨by norm_num, caml_copy_double_roundtrip false 0x400921FB54442D18 (by norm_num)⟩

/-!
## String to float conversion

`caml_float_of_string` (floats.c:228-259) and `caml_float_of_substring`
(floats.c:190-226).  Strings are modelled as `List Char`, success as
`Except.ok` of the parsed value and `caml_failwith("float_of_string")` as
`Except.error "float_of_string"`.  The native parser `strtod` is an
external C library call, so the two entry points take it as a parameter:
it returns the parsed value and the offset of its end pointer from the
start of the buffer.
-/

/-- The separator-deleting copy loop shared by `caml_float_of_string`
(floats.c:239-242) and `caml_float_of_substring` (floats.c:206-209):
`while (len--) { char c = *src++; if (c != '_') *dst++ = c; }`. -/
def strip_sep : List Char → List Char
  | [] => []
  | c :: rest => if c = '_' then strip_sep rest else c :: strip_sep rest

/-- `caml_float_of_string` (floats.c:228-259): strip separators, fail if
the cleaned buffer is empty (`dst == buf`), run the native parser, fail
if it did not stop at the end of the cleaned buffer (`end != dst`). -/
def caml_float_of_string (parse : List Char → ℚ × Nat) (s : List Char) :
    Except String ℚ :=
  let buf := strip_sep s
  if buf = [] then .error "float_of_string"
  else
    let r := parse buf
    if r.2 ≠ buf.length then .error "float_of_string"
    else .ok r.1

/-- `caml_float_of_substring` (floats.c:190-226): like
`caml_float_of_string` but reading `len` characters from offset `fidx`,
where `len` is forced to 0 unless
`fidx >= 0 && fidx < lenvs && flen > 0 && flen <= lenvs - fidx`. -/
def caml_float_of_substring (parse : List Char → ℚ × Nat) (vs : List Char)
    (idx l : Int) : Except String ℚ :=
  let lenvs : Int := vs.length
  let len : Nat :=
    if 0 ≤ idx ∧ idx < lenvs ∧ 0 < l ∧ l ≤ lenvs - idx then l.toNat else 0
  let buf := strip_sep (List.take len (List.drop idx.toNat vs))
  if buf = [] then .error "float_of_string"
  else
    let r := parse buf
    if r.2 ≠ buf.length then .error "float_of_string"
    else .ok r.1

/-- Character classes used by the model of the native parser. -/
def isSpaceC (c : Char) : Bool :=
  c = ' ' || c = '\t' || c = '\n' || c = '\x0b' || c = '\x0c' || c = '\r'

def isDigitC (c : Char) : Bool := '0' ≤ c && c ≤ '9'

def digVal (c : Char) : Nat := c.toNat - '0'.toNat

def natOfDigits (l : List Char) : Nat := l.foldl (fun a c => 10 * a + digVal c) 0

/-- The shape of the numeric token found by the native parser: sign,
integral digits, fractional digits, exponent sign and digits, and the
number of characters consumed (the end-pointer offset). -/
structure ParseOut where
  neg : Bool
  ip : List Char
  fp : List Char
  eneg : Bool
  ed : List Char
  consumed : Nat
deriving DecidableEq

/-- Modelled from the spec: the scanning part of the native
string-to-double parser (C library `strtod`, which is not part of this
repository).  Per the spec and the C standard it skips leading
whitespace, then reads an optional sign, a decimal significand (digits
with an optional point, at least one digit in total), and an optional
exponent part (`e`/`E`, optional sign, at least one digit); it consumes
the longest valid prefix, and consumes nothing when no conversion can be
performed. -/
def strtodScan (s : List Char) : ParseOut :=
  let ws := (s.takeWhile isSpaceC).length
  let r1 := s.dropWhile isSpaceC
  let neg : Bool := match r1 with | '-' :: _ => true | _ => false
  let ns : Nat := match r1 with | '-' :: _ => 1 | '+' :: _ => 1 | _ => 0
  let r2 := r1.drop ns
  let ip := r2.takeWhile isDigitC
  let r3 := r2.dropWhile isDigitC
  let fp : List Char := match r3 with | '.' :: t => t.takeWhile isDigitC | _ => []
  let nf : Nat := match r3 with | '.' :: _ => 1 + fp.length | _ => 0
  let r4 : List Char := match r3 with | '.' :: t => t.dropWhile isDigitC | _ => r3
  if ip = [] ∧ fp = [] then ⟨false, [], [], false, [], 0⟩
  else
    let ep : Bool × Nat × List Char :=
      match r4 with
      | 'e' :: '-' :: t => (true, 2, t.takeWhile isDigitC)
      | 'E' :: '-' :: t => (true, 2, t.takeWhile isDigitC)
      | 'e' :: '+' :: t => (false, 2, t.takeWhile isDigitC)
      | 'E' :: '+' :: t => (false, 2, t.takeWhile isDigitC)
      | 'e' :: t => (false, 1, t.takeWhile isDigitC)
      | 'E' :: t => (false, 1, t.takeWhile isDigitC)
      | _ => (false, 0, [])
    let ed := ep.2.2
    if ed = [] then ⟨neg, ip, fp, false, [], ws + ns + ip.length + nf⟩
    else ⟨neg, ip, fp, ep.1, ed, ws + ns + ip.length + nf + ep.2.1 + ed.length⟩

/-- The exact rational value of a scanned numeric token. -/
def valueOf (p : ParseOut) : ℚ :=
  let base : ℚ := (if p.neg then -1 else 1) *
    ((natOfDigits p.ip : ℚ) + (natOfDigits p.fp : ℚ) / (10 ^ p.fp.length : ℚ))
  if p.ed = [] then base
  else if p.eneg then base / (10 ^ natOfDigits p.ed : ℚ)
  else base * (10 ^ natOfDigits p.ed : ℚ)

/-- Modelled from the spec: the native string-to-double parser itself
(value and end-pointer offset), with the value represented exactly as a
rational. -/
def strtod (s : List Char) : ℚ × Nat := (valueOf (strtodScan s), (strtodScan s).consumed)

/-- **C6** `caml_float_of_string` answers the `"float_of_string"` failure
exactly when the separator-stripped input is empty or the native parser
stops before the end of the cleaned buffer, and otherwise returns the
parsed value — whatever the native parser is; with the modelled parser,
`"abc"` and `"12x"` fail while `"3.14"` parses to 157/50. -/
theorem caml_float_of_string_error_iff :
    (∀ (parse : List Char → ℚ × Nat) (s : List Char),
        caml_float_of_string parse s = .error "float_of_string" ↔
          (strip_sep s = [] ∨ (parse (strip_sep s)).2 ≠ (strip_sep s).length)) ∧
    (∀ (parse : List Char → ℚ × Nat) (s : List Char),
        caml_float_of_string parse s = .error "float_of_string" ∨
        caml_float_of_string parse s = .ok (parse (strip_sep s)).1) ∧
    caml_float_of_string strtod "abc".toList = .error "float_of_string" ∧
    caml_float_of_string strtod "12x".toList = .error "float_of_string" ∧
    caml_float_of_string strtod "3.14".toList = .ok (157 / 50) := by
  refine ⟨?_, ?_, ?_, ?_, ?_⟩
  · intro parse s
    unfold caml_float_of_string
    by_cases h1 : strip_sep s = []
    · simp [h1]
    · by_cases h2 : (parse (strip_sep s)).2 = (strip_sep s).length
      · simp [h1, h2]
      · simp [h1, h2]
  · intro parse s
    unfold caml_float_of_string
    by_cases h1 : strip_sep s = []
    · simp [h1]
    · by_cases h2 : (parse (strip_sep s)).2 = (strip_sep s).length
      · simp [h1, h2]
      · simp [h1, h2]
  · have h1 : strip_sep ['a', 'b', 'c'] = ['a', 'b', 'c'] := by decide
    have h2 : (strtodScan ['a', 'b', 'c']).consumed = 0 := by decide
    simp [caml_float_of_string, strtod, h1, h2]
  · have h1 : strip_sep ['1', '2', 'x'] = ['1', '2', 'x'] := by decide
    have h2 : (strtodScan ['1', '2', 'x']).consumed = 2 := by decide
    simp [caml_float_of_string, strtod, h1, h2]
  · have h1 : strip_sep ['3', '.', '1', '4'] = ['3', '.', '1', '4'] := by decide
    have h2 : strtodScan ['3', '.', '1', '4'] =
        ⟨false, ['3'], ['1', '4'], false, [], 4⟩ := by decide
    have h3 : natOfDigits ['3'] = 3 := by decide
    have h4 : natOfDigits ['1', '4'] = 14 := by decide
    simp [caml_float_of_string, strtod, h1, h2, valueOf, h3, h4]
    norm_num

/-- **C7** The copy loop of `caml_float_of_string` and
`caml_float_of_substring` deletes every digit-group separator `'_'` and
keeps every other character in order — it is exactly the filter on
`c ≠ '_'` — and so `float_of_string("1_000.5") = 1000.5` (= 2001/2). -/
theorem float_of_string_strips_separators :
    (∀ s : List Char, strip_sep s = s.filter (fun c => c ≠ '_')) ∧
    caml_float_of_string strtod "1_000.5".toList = .ok (2001 / 2) := by
  constructor
  · intro s
    induction s with
    | nil => rfl
    | cons c rest ih => by_cases hc : c = '_' <;> simp [strip_sep, hc, ih]
  · have h1 : strip_sep ['1', '_', '0', '0', '0', '.', '5'] =
        ['1', '0', '0', '0', '.', '5'] := by decide
    have h2 : strtodScan ['1', '0', '0', '0', '.', '5'] =
        ⟨false, ['1', '0', '0', '0'], ['5'], false, [], 6⟩ := by decide
    have h3 : natOfDigits ['1', '0', '0', '0'] = 1000 := by decide
    have h4 : natOfDigits ['5'] = 5 := by decide
    simp [caml_float_of_string, strtod, h1, h2, valueOf, h3, h4]
    norm_num

/-- **C9** When `(idx, l)` is not a valid non-empty slice of `vs` —
`idx < 0`, `idx ≥ length`, `l ≤ 0` or `l > length - idx` — the length
guard of `caml_float_of_substring` forces the copied slice to be empty,
so it raises the `"float_of_string"` failure, for any native parser. -/
theorem caml_float_of_substring_invalid_slice
    (parse : List Char → ℚ × Nat) (vs : List Char) (idx l : Int)
    (h : idx < 0 ∨ (vs.length : Int) ≤ idx ∨ l ≤ 0 ∨
      (vs.length : Int) - idx < l) :
    caml_float_of_substring parse vs idx l = .error "float_of_string" := by
  unfold caml_float_of_substring
  have hlen : ¬ (0 ≤ idx ∧ idx < (vs.length : Int) ∧ 0 < l ∧
      l ≤ (vs.length : Int) - idx) := by omega
  simp [hlen, strip_sep]

/-- Witness for `caml_float_of_substring_invalid_slice`: index 10 is out
of bounds for the 4-character string "3.14". -/
theorem caml_float_of_substring_invalid_slice_witness :
    caml_float_of_substring strtod "3.14".toList 10 1 = .error "float_of_string" :=
  caml_float_of_substring_invalid_slice strtod "3.14".toList 10 1 (by decide)

/-- **C10** After separator stripping, leading whitespace is accepted
(the native parser skips it) but trailing whitespace is rejected (the
parser stops before it, so the end-of-buffer check fails): `" 3.14"`
parses to 157/50 while `"3.14 "` raises the `"float_of_string"` failure. -/
theorem caml_float_of_string_whitespace :
    caml_float_of_string strtod " 3.14".toList = .ok (157 / 50) ∧
    caml_float_of_string strtod "3.14 ".toList = .error "float_of_string" := by
  constructor
  · have h1 : strip_sep [' ', '3', '.', '1', '4'] = [' ', '3', '.', '1', '4'] := by
      decide
    have h2 : strtodScan [' ', '3', '.', '1', '4'] =
        ⟨false, ['3'], ['1', '4'], false, [], 5⟩ := by decide
    have h3 : natOfDigits ['3'] = 3 := by decide
    have h4 : natOfDigits ['1', '4'] = 14 := by decide
    simp [caml_float_of_string, strtod, h1, h2, valueOf, h3, h4]
    norm_num
  · have h1 : strip_sep ['3', '.', '1', '4', ' '] = ['3', '.', '1', '4', ' '] := by
      decide
    have h2 : (strtodScan ['3', '.', '1', '4', ' ']).consumed = 4 := by decide
    simp [caml_float_of_string, strtod, h1, h2]

/-!
## Formatting of non-finite values

`caml_format_float` (floats.c:122-188).  Under `HAS_BROKEN_PRINTF` the
non-finite classes bypass the native formatter entirely
(floats.c:168-185); the finite path builds a buffer and calls the native
`sprintf`, which is an external library call and is taken as a parameter.
-/

/-- The C `isfinite` predicate on doubles. -/
def isfinite : DVal → Bool
  | .F _ => true
  | _ => false

/-- The C `isnan` predicate on doubles. -/
def isnan : DVal → Bool
  | .NaN => true
  | _ => false

/-- `caml_format_float` in the `HAS_BROKEN_PRINTF` configuration
(floats.c:136-186): finite values go to the native formatter; otherwise
`"nan"` for NaN, else `"inf"` when `d > 0`, else `"-inf"`. -/
def caml_format_float (sprintf : String → DVal → String) (fmt : String)
    (arg : DVal) : String :=
  if isfinite arg then sprintf fmt arg
  else if isnan arg then "nan"
  else if dgt arg (.F 0) then "inf"
  else "-inf"

/-- **C8** In the broken-printf configuration `caml_format_float` returns
exactly `"nan"`, `"inf"`, `"-inf"` on NaN, +∞, −∞, for every format
string and whatever the native formatter does. -/
theorem caml_format_float_broken_nonfinite
    (sprintf : String → DVal → String) (fmt : String) :
    caml_format_float sprintf fmt .NaN = "nan" ∧
    caml_format_float sprintf fmt .PInf = "inf" ∧
    caml_format_float sprintf fmt .NInf = "-inf" :=
  ⟨rfl, rfl, rfl⟩

end Floats
